import Mathlib

/-!
Verification of the chunked-upload coordinator of `FCO-1/file_server`.

The development shallowly embeds the JavaScript source:

* `src/services/imageProcessor.mjs` / `uploadTracker.mjs` — the upload
  registry (`chunksTracker`), the processing lock (`processingLock`),
  `getUploadStatus`, `cancelUpload`, `updateUploadProgress`,
  `markUploadAsFailed`;
* `src/services/chunkProcessor.mjs` — `combineChunks`,
  `combineAndProcessChunks`;
* `src/services/cleanupService.mjs` — `registerForCleanup`,
  `cleanupUpload`;
* `src/controllers/uploadController.mjs` — `handleChunkUpload`;
* `src/services/s3Service.mjs` — `queueForSync`, `updateSyncStatus`.

JavaScript `Map`s are modelled as association lists with string (or
string-pair) keys; insertion order is never observed by any modelled
operation, so `mset` may reorder entries.  File contents are byte lists.
Nondeterministic inputs of the source (`Date.now()`, `crypto.randomBytes`,
the external `sharp` transform, the outcome of a remote S3 transfer) are
explicit parameters.
-/

namespace FileServer

/-- Raw file contents: a list of bytes (values mod 256 are irrelevant to
any claim, so plain naturals are used). -/
abbrev Bytes := List Nat

section MapModel

variable {κ : Type} {α : Type} [DecidableEq κ]

/-- `Map.get(k)` of a JavaScript `Map` modelled as an association list. -/
def mget (m : List (κ × α)) (k : κ) : Option α :=
  (m.find? (fun p => decide (p.1 = k))).map (·.2)

/-- `Map.delete(k)`. -/
def mdelete (m : List (κ × α)) (k : κ) : List (κ × α) :=
  m.filter (fun p => decide (p.1 ≠ k))

/-- `Map.set(k, v)`.  Insertion order is not preserved (no modelled
operation observes it). -/
def mset (m : List (κ × α)) (k : κ) (v : α) : List (κ × α) :=
  (k, v) :: mdelete m k

@[simp] theorem mget_nil (k : κ) : mget ([] : List (κ × α)) k = none := rfl

@[simp] theorem mget_cons (p : κ × α) (m : List (κ × α)) (k : κ) :
    mget (p :: m) k = if p.1 = k then some p.2 else mget m k := by
  by_cases h : p.1 = k <;> simp [mget, List.find?, h]

@[simp] theorem mdelete_nil (k : κ) : mdelete ([] : List (κ × α)) k = [] := rfl

@[simp] theorem mdelete_cons (p : κ × α) (m : List (κ × α)) (k : κ) :
    mdelete (p :: m) k = if p.1 = k then mdelete m k else p :: mdelete m k := by
  by_cases h : p.1 = k <;> simp [mdelete, List.filter_cons, h]

@[simp] theorem mget_mset_self (m : List (κ × α)) (k : κ) (v : α) :
    mget (mset m k v) k = some v := by
  simp [mset]

@[simp] theorem mget_mdelete_self (m : List (κ × α)) (k : κ) :
    mget (mdelete m k) k = none := by
  induction m with
  | nil => rfl
  | cons p m ih => by_cases hp : p.1 = k <;> simp [hp, ih]

theorem mget_mdelete_ne (m : List (κ × α)) (k k' : κ) (h : k ≠ k') :
    mget (mdelete m k) k' = mget m k' := by
  induction m with
  | nil => rfl
  | cons p m ih =>
    by_cases hp : p.1 = k
    · have hne : p.1 ≠ k' := by rw [hp]; exact h
      rw [mdelete_cons, if_pos hp, mget_cons, if_neg hne, ih]
    · rw [mdelete_cons, if_neg hp, mget_cons, mget_cons]
      by_cases hk' : p.1 = k'
      · rw [if_pos hk', if_pos hk']
      · rw [if_neg hk', if_neg hk', ih]

theorem mget_mset_ne (m : List (κ × α)) (k k' : κ) (v : α) (h : k ≠ k') :
    mget (mset m k v) k' = mget m k' := by
  simp only [mset, mget_cons, if_neg h]
  exact mget_mdelete_ne m k k' h

end MapModel

/-- Upload lifecycle statuses (`UploadStatus` in `uploadTracker.mjs`). -/
inductive UploadStatus
  | initializing
  | in_progress
  | processing
  | completed
  | failed
  | cancelled
deriving DecidableEq, Repr

/-- One entry of the `chunksTracker` map.  `error`, `lastChunkReceived` and
`chunksReceived` are absent on the freshly created object and are added
later by `markUploadAsFailed` / `updateUploadProgress`, hence the
defaults. -/
structure Tracking where
  chunks : Finset Nat
  totalChunks : Nat
  filename : String
  timestamp : Nat
  status : UploadStatus
  error : Option String := none
  lastChunkReceived : Option Nat := none
  chunksReceived : Nat := 0
deriving DecidableEq

/-- The three directories the coordinator touches.  A chunk file
`{uploadId}-{i}` in the chunks directory is keyed by the pair
`(uploadId, i)`; temp files `temp_{uploadId}` in the processing directory
and final artifacts in the upload directory are keyed by their names. -/
structure FS where
  chunks : List ((String × Nat) × Bytes)
  processing : List (String × Bytes)
  uploads : List (String × Bytes)
deriving DecidableEq, Repr

/-- The `files` payload passed to `cleanupService.registerForCleanup`. -/
structure CleanupFiles where
  temp : String
  chunks : List (String × Nat)
  final : Option String := none
deriving DecidableEq, Repr

/-- One entry of `cleanupService.cleanupRegistry`. -/
structure CleanupRecord where
  timestamp : Nat
  files : CleanupFiles
  cleaned : Bool
deriving DecidableEq, Repr

/-- The shared mutable state of the coordinator: the upload registry
`chunksTracker`, the processing gate `processingLock`, the cleanup
ledger, and the file system. -/
structure SysState where
  chunksTracker : List (String × Tracking)
  processingLock : List (String × Bool)
  cleanupRegistry : List (String × CleanupRecord)
  fs : FS
deriving DecidableEq

/-- Errors thrown by the embedded operations, one constructor per `throw
new Error(...)` site (plus `referenceError` for accesses to unbound
identifiers, which JavaScript turns into a thrown `ReferenceError`). -/
inductive JsError
  | invalidUploadId
  | missingChunkFile (uploadId : String) (index : Nat)
  | processFailed (msg : String)
  | referenceError (name : String)
  | uploadNotFound
  | cannotCancelWhileProcessing
  | failedToCancel (msg : String)
deriving DecidableEq, Repr

/-- The `.message` of each error, as the source builds it (the chunks
directory path that the source interpolates into the missing-chunk
message is configuration and is elided, keeping only the file name). -/
def errMessage : JsError → String
  | .invalidUploadId => "Invalid upload ID"
  | .missingChunkFile uploadId i => "Missing chunk file: " ++ uploadId ++ "-" ++ toString i
  | .processFailed m => "Failed to process file: " ++ m
  | .referenceError n => n ++ " is not defined"
  | .uploadNotFound => "Upload not found"
  | .cannotCancelWhileProcessing => "Cannot cancel upload while processing"
  | .failedToCancel m => "Failed to cancel upload: " ++ m

/-- The two response shapes of `getUploadStatus` in `uploadTracker.mjs`:
the `{status: FAILED, error}` object returned for an unknown id, and the
full status view for a live session. -/
inductive StatusResponse
  | unknownView (status : UploadStatus) (error : String)
  | statusView (status : UploadStatus) (chunksReceived totalChunks : Nat)
      (filename : String) (uploadStartTime : Nat) (processingStatus : String)
deriving DecidableEq, Repr

/-- `getUploadStatus` (`uploadTracker.mjs` lines 223-255).  Note that for
an unknown id the source RETURNS a `{status: FAILED, error: 'Upload not
found'}` object; it does not throw.  The `Except` in the result type
records that the embedded operation can in principle fail like any JS
function, making "fails" statable; this one never does. -/
def getUploadStatus (uploadId : String) (st : SysState) : Except JsError StatusResponse :=
  match mget st.chunksTracker uploadId with
  | none => .ok (.unknownView .failed "Upload not found")
  | some tracking =>
      let isProcessing := (mget st.processingLock uploadId).getD false
      let isComplete := tracking.chunks.card = tracking.totalChunks
      let status :=
        if isProcessing then UploadStatus.processing
        else if isComplete then UploadStatus.completed
        else if 0 < tracking.chunks.card then UploadStatus.in_progress
        else UploadStatus.initializing
      .ok (.statusView status tracking.chunks.card tracking.totalChunks
        tracking.filename tracking.timestamp (if isProcessing then "active" else "inactive"))

/-- `updateUploadProgress` (`uploadTracker.mjs` lines 321-326):
`Object.assign` of `{lastChunkReceived, chunksReceived}` onto the stored
tracking object. -/
def updateUploadProgress (uploadId : String) (now received : Nat) (st : SysState) : SysState :=
  match mget st.chunksTracker uploadId with
  | none => st
  | some t =>
      let t2 : Tracking := { t with lastChunkReceived := some now, chunksReceived := received }
      { st with chunksTracker := mset st.chunksTracker uploadId t2 }

/-- `markUploadAsFailed` (`uploadTracker.mjs` lines 333-339). -/
def markUploadAsFailed (uploadId : String) (msg : String) (st : SysState) : SysState :=
  match mget st.chunksTracker uploadId with
  | none => st
  | some t =>
      let t2 : Tracking := { t with status := .failed, error := some msg }
      { st with chunksTracker := mset st.chunksTracker uploadId t2 }

/-- `cleanupService.registerForCleanup` (`cleanupService.mjs` lines
24-30): stores/overwrites the ledger entry with `cleaned := false`. -/
def registerForCleanup (uploadId : String) (now : Nat) (files : CleanupFiles)
    (st : SysState) : SysState :=
  let rec2 : CleanupRecord := { timestamp := now, files := files, cleaned := false }
  { st with cleanupRegistry := mset st.cleanupRegistry uploadId rec2 }

/-- `cleanupService.cleanupUpload` (`cleanupService.mjs` lines 37-74):
deletes every chunks-directory file whose name starts with
`{uploadId}-` (keys with first component `uploadId` in this model),
deletes the temp file `temp_{uploadId}`, and — only when `success` is
false and the ledger entry carries a final-file name — deletes that
final artifact; then marks the ledger entry cleaned.  The
delayed (`setTimeout`, one hour) removal of the ledger entry is outside
the modelled window.  Deletion of absent files is a no-op, as in the
source (errors are swallowed). -/
def cleanupUpload (uploadId : String) (success : Bool) (st : SysState) : SysState :=
  let chunksFs := st.fs.chunks.filter (fun p => decide (p.1.1 ≠ uploadId))
  let processingFs := mdelete st.fs.processing ("temp_" ++ uploadId)
  let reg := mget st.cleanupRegistry uploadId
  let uploadsFs :=
    if success then st.fs.uploads
    else
      match reg with
      | some r =>
          match r.files.final with
          | some f => mdelete st.fs.uploads f
          | none => st.fs.uploads
      | none => st.fs.uploads
  let registry :=
    match reg with
    | some r => mset st.cleanupRegistry uploadId ({ r with cleaned := true })
    | none => st.cleanupRegistry
  { st with
      fs := { chunks := chunksFs, processing := processingFs, uploads := uploadsFs },
      cleanupRegistry := registry }

/-- Index of the first chunk file `{uploadId}-{i}`, `i < total`, missing
from the chunks directory. -/
def firstMissingChunk (chunksFs : List ((String × Nat) × Bytes))
    (uploadId : String) (total : Nat) : Option Nat :=
  (List.range total).find? (fun i => (mget chunksFs (uploadId, i)).isNone)

/-- Bytes the write loop of `combineChunks` streams to the destination
before reaching index `j`: the contents of chunk files `0 .. j-1`
concatenated in ascending index order. -/
def bytesBefore (chunksFs : List ((String × Nat) × Bytes))
    (uploadId : String) (j : Nat) : Bytes :=
  (List.range j).flatMap (fun i => (mget chunksFs (uploadId, i)).getD [])

/-- `combineChunks` (`chunkProcessor.mjs` lines 71-97), with JavaScript
promise semantics made explicit.  The function first issues an
`fs.promises.access` per expected chunk; a missing chunk fires
`reject(Missing chunk file ...)`, which settles the returned promise
with that error.  However each access promise carries a `.catch` that
CONVERTS its rejection into a fulfilment, so `Promise.all` fulfils
either way and the write loop still runs: it streams chunk files in
ascending index order into the destination until the `readFile` of the
first missing index throws (its rejection hits the already-settled
promise and is dropped).  The result is therefore the pair of the
promise outcome and the bytes written to the destination stream: on a
missing chunk `j` (least missing index), the error together with chunks
`0 .. j-1`; with all chunks present, success together with all chunks
in ascending order, the stream flushed and closed (`finish`). -/
def combineChunks (chunksFs : List ((String × Nat) × Bytes))
    (uploadId : String) (total : Nat) : Except JsError Unit × Bytes :=
  match firstMissingChunk chunksFs uploadId total with
  | some j => (.error (.missingChunkFile uploadId j), bytesBefore chunksFs uploadId j)
  | none => (.ok (), bytesBefore chunksFs uploadId total)

/-- Result of the external transform collaborator
(`imageProcessor.processImage`): a success flag, an error message on
failure, and the bytes written to the output path.  Per the source,
every branch of `processImage` — including the catch branch — writes an
output file at `outputPath`, so the model always stores `output`
there. -/
structure TransformResult where
  success : Bool
  error : Option String := none
  output : Bytes := []
deriving DecidableEq, Repr

/-- The object the success path of `combineAndProcessChunks` is meant to
return: artifact metadata together with the sync-task identifier. -/
structure PipelineSuccess where
  filename : String
  syncTaskId : String
  s3Key : String
deriving DecidableEq, Repr

/-- `combineAndProcessChunks` (`chunkProcessor.mjs` lines 17-65).
`transform` is the external image transform (a black box per the spec),
`rand` the hex string `crypto.randomBytes(8)` produced for the final
file name, `now` the clock.  Steps, as in the source: create/truncate
the temp file (`createWriteStream`), register chunks+temp for cleanup,
combine the chunks (partial bytes land in the temp file even on
failure, see `combineChunks`), and on combine failure run failure-mode
cleanup and rethrow.  On combine success: register the final file name,
run the transform (which always writes the final path), throw `Failed
to process file` on transform failure (then failure cleanup), and on
transform success run success cleanup — after which the `return`
statement reads the identifier `syncTaskId`, which is never assigned
anywhere in the module, so JavaScript raises
`ReferenceError: syncTaskId is not defined`; the catch block then runs
cleanup again in failure mode (now deleting the just-produced final
artifact, whose name was registered) and rethrows.  The function
therefore never returns a success value. -/
def combineAndProcessChunks (transform : Bytes → TransformResult) (rand : String)
    (now : Nat) (uploadId : String) (totalChunks : Nat) (originalFilename : String)
    (st : SysState) : Except JsError PipelineSuccess × SysState :=
  let tempName := "temp_" ++ uploadId
  let st1 : SysState := { st with fs := { st.fs with processing := mset st.fs.processing tempName [] } }
  let chunkNames := (List.range totalChunks).map (fun i => (uploadId, i))
  let st2 := registerForCleanup uploadId now ⟨tempName, chunkNames, none⟩ st1
  match combineChunks st2.fs.chunks uploadId totalChunks with
  | (.error e, written) =>
      let st3 : SysState := { st2 with fs := { st2.fs with processing := mset st2.fs.processing tempName written } }
      (.error e, cleanupUpload uploadId false st3)
  | (.ok _, written) =>
      let st3 : SysState := { st2 with fs := { st2.fs with processing := mset st2.fs.processing tempName written } }
      let finalFilename := rand ++ "-" ++ originalFilename
      let st4 := registerForCleanup uploadId now ⟨tempName, chunkNames, some finalFilename⟩ st3
      let tr := transform written
      let st5 : SysState := { st4 with fs := { st4.fs with uploads := mset st4.fs.uploads finalFilename tr.output } }
      if tr.success then
        let st6 := cleanupUpload uploadId true st5
        (.error (.referenceError "syncTaskId"), cleanupUpload uploadId false st6)
      else
        (.error (.processFailed (tr.error.getD "undefined")), cleanupUpload uploadId false st5)

/-- The response shapes of `handleChunkUpload`
(`uploadController.mjs`): plain chunk acknowledgment, the
"processing in progress" acknowledgment returned when the gate is
already held, and the completion payload (never produced, see
`combineAndProcessChunks`). -/
inductive UploadResponse
  | chunkReceived (chunksReceived totalChunks : Nat)
  | processingBusy (chunksReceived totalChunks : Nat)
  | uploadComplete (r : PipelineSuccess)
deriving DecidableEq, Repr

/-- `handleChunkUpload` (`uploadController.mjs` lines 27-111), for a
request whose chunk file was already stored by the upload-receiving
facility (multer) and whose metadata parsed.  Records the chunk index
idempotently, overwrites `totalChunks`/`filename` (last writer wins),
updates progress; when the received-set size equals `totalChunks`: if
the processing lock is free it is taken, the combine pipeline runs, and
on success the session and lock are deleted while on failure the lock
is deleted and the session marked failed (the controller's outer catch
marks it failed a second time, line 108) before rethrowing; if the lock
is already held, an "in progress" acknowledgment is returned without
entering the pipeline. -/
def handleChunkUpload (transform : Bytes → TransformResult) (rand : String) (now : Nat)
    (uploadId : String) (chunkNumber totalChunks : Nat) (originalFilename : String)
    (st : SysState) : Except JsError UploadResponse × SysState :=
  match mget st.chunksTracker uploadId with
  | none => (.error .invalidUploadId, st)
  | some tracking =>
      let tracking1 : Tracking := { tracking with
        chunks := insert chunkNumber tracking.chunks,
        totalChunks := totalChunks,
        filename := originalFilename }
      let st1 : SysState := { st with chunksTracker := mset st.chunksTracker uploadId tracking1 }
      let st2 := updateUploadProgress uploadId now tracking1.chunks.card st1
      if tracking1.chunks.card = tracking1.totalChunks then
        if (mget st2.processingLock uploadId).getD false then
          (.ok (.processingBusy tracking1.chunks.card tracking1.totalChunks), st2)
        else
          let st3 : SysState := { st2 with processingLock := mset st2.processingLock uploadId true }
          match combineAndProcessChunks transform rand now uploadId tracking1.totalChunks tracking1.filename st3 with
          | (.ok r, st4) =>
              let st5 : SysState := { st4 with
                chunksTracker := mdelete st4.chunksTracker uploadId,
                processingLock := mdelete st4.processingLock uploadId }
              (.ok (.uploadComplete r), st5)
          | (.error e, st4) =>
              let st5 : SysState := { st4 with processingLock := mdelete st4.processingLock uploadId }
              let st6 := markUploadAsFailed uploadId (errMessage e) st5
              (.error e, markUploadAsFailed uploadId (errMessage e) st6)
      else
        (.ok (.chunkReceived tracking1.chunks.card tracking1.totalChunks), st2)

/-- Success payload of `cancelUpload`. -/
structure CancelResponse where
  status : UploadStatus
  message : String
deriving DecidableEq, Repr

/-- `cleanupUploadChunks` (`uploadTracker.mjs` lines 296-314).  The
helper's first statement is `const fs = require('fs')`; the module is
an ES module (`.mjs`), where the identifier `require` is not bound, so
the call raises `ReferenceError: require is not defined` before any
file is touched (line 310 additionally reads an undeclared
`processingDir`).  The helper therefore always throws and never mutates
the state. -/
def cleanupUploadChunks (_uploadId : String) (_st : SysState) : Except JsError SysState :=
  .error (.referenceError "require")

/-- `cancelUpload` (`uploadTracker.mjs` lines 262-289): `Upload not
found` for an unknown id; `Cannot cancel upload while processing` while
the gate is held; otherwise it calls `cleanupUploadChunks` — which
always throws, see there — whose error the catch wraps into `Failed to
cancel upload: ...`, leaving the session and lock entries in place.
The intended branch (delete tracker and lock entries, return the
CANCELLED payload) is kept for the hypothetical case that cleanup
returns; the source can never reach it. -/
def cancelUpload (uploadId : String) (st : SysState) : Except JsError CancelResponse × SysState :=
  match mget st.chunksTracker uploadId with
  | none => (.error .uploadNotFound, st)
  | some _ =>
      if (mget st.processingLock uploadId).getD false then
        (.error .cannotCancelWhileProcessing, st)
      else
        match cleanupUploadChunks uploadId st with
        | .error e => (.error (.failedToCancel (errMessage e)), st)
        | .ok st1 =>
            let st2 : SysState := { st1 with
              chunksTracker := mdelete st1.chunksTracker uploadId,
              processingLock := mdelete st1.processingLock uploadId }
            (.ok ⟨.cancelled, "Upload cancelled successfully"⟩, st2)

/-- Sync-task statuses (`S3SyncStatus` in `s3Service.mjs`). -/
inductive SyncStatus
  | pending
  | syncing
  | completed
  | failed
deriving DecidableEq, Repr

/-- One entry of `s3Service.syncRegistry`.  `fileInfo` is the opaque
task payload. -/
structure SyncInfo where
  status : SyncStatus
  startTime : Nat
  fileInfo : String
  error : Option String := none
  completedTime : Option Nat := none
deriving DecidableEq, Repr

/-- `updateSyncStatus` (`s3Service.mjs` lines 185-192). -/
def updateSyncStatus (taskId : String) (status : SyncStatus) (error : Option String)
    (now : Nat) (reg : List (String × SyncInfo)) : List (String × SyncInfo) :=
  match mget reg taskId with
  | none => reg
  | some info =>
      let info2 : SyncInfo := { info with status := status, error := error, completedTime := some now }
      mset reg taskId info2

/-- Ordered events of one `queueForSync` call, used to express when the
caller obtains the task identifier relative to the transfer. -/
inductive SyncEvent
  | registryRecorded (taskId : String) (status : SyncStatus)
  | transferFinished (ok : Bool)
  | promiseResolved (taskId : String)
  | promiseRejected (errMsg : String)
deriving DecidableEq, Repr

/-- `queueForSync` (`s3Service.mjs` lines 164-183).  The function
records the task in `syncRegistry` with status `pending`, then pushes
it onto the `better-queue` instance.  Per the durable-queue
collaborator's contract (spec section 6: the engine "invokes a supplied
handler per task with pass/fail callback"), the callback passed to
`queue.push` fires only once the task's processing — the S3 transfer
with its retries — has finished: on final failure the callback marks
the registry entry failed and REJECTS the returned promise, on success
it resolves the promise with the task identifier.  `outcome` is the
eventual result of that processing (external transport).  The returned
trace records the order of the observable events: the registry write,
the end of the transfer, and the settlement of the caller's promise. -/
def queueForSync (taskId : String) (now : Nat) (fileInfo : String)
    (outcome : Except String Unit) (reg : List (String × SyncInfo)) :
    Except String String × List (String × SyncInfo) × List SyncEvent :=
  let reg1 := mset reg taskId { status := .pending, startTime := now, fileInfo := fileInfo }
  match outcome with
  | .ok _ =>
      (.ok taskId, reg1,
        [.registryRecorded taskId .pending, .transferFinished true, .promiseResolved taskId])
  | .error m =>
      let reg2 := updateSyncStatus taskId .failed (some m) now reg1
      (.error m, reg2,
        [.registryRecorded taskId .pending, .transferFinished false, .promiseRejected m])

/-! ### Helper lemmas about the state components each operation touches -/

@[simp] theorem updateUploadProgress_processingLock (u : String) (n r : Nat) (s : SysState) :
    (updateUploadProgress u n r s).processingLock = s.processingLock := by
  unfold updateUploadProgress; split <;> rfl

@[simp] theorem updateUploadProgress_fs (u : String) (n r : Nat) (s : SysState) :
    (updateUploadProgress u n r s).fs = s.fs := by
  unfold updateUploadProgress; split <;> rfl

@[simp] theorem updateUploadProgress_cleanupRegistry (u : String) (n r : Nat) (s : SysState) :
    (updateUploadProgress u n r s).cleanupRegistry = s.cleanupRegistry := by
  unfold updateUploadProgress; split <;> rfl

@[simp] theorem markUploadAsFailed_processingLock (u m : String) (s : SysState) :
    (markUploadAsFailed u m s).processingLock = s.processingLock := by
  unfold markUploadAsFailed; split <;> rfl

@[simp] theorem registerForCleanup_chunksTracker (u : String) (n : Nat) (f : CleanupFiles) (s : SysState) :
    (registerForCleanup u n f s).chunksTracker = s.chunksTracker := rfl

@[simp] theorem registerForCleanup_processingLock (u : String) (n : Nat) (f : CleanupFiles) (s : SysState) :
    (registerForCleanup u n f s).processingLock = s.processingLock := rfl

@[simp] theorem cleanupUpload_chunksTracker (u : String) (b : Bool) (s : SysState) :
    (cleanupUpload u b s).chunksTracker = s.chunksTracker := rfl

@[simp] theorem cleanupUpload_processingLock (u : String) (b : Bool) (s : SysState) :
    (cleanupUpload u b s).processingLock = s.processingLock := rfl

/-- The combine pipeline never touches the upload registry itself: only
the controller deletes or marks sessions. -/
theorem combineAndProcessChunks_chunksTracker (tf : Bytes → TransformResult)
    (rand : String) (now : Nat) (u : String) (T : Nat) (fn : String) (st : SysState) :
    (combineAndProcessChunks tf rand now u T fn st).2.chunksTracker = st.chunksTracker := by
  simp only [combineAndProcessChunks]
  split
  · rfl
  · split <;> rfl

/-- The combine pipeline never touches the processing lock: acquisition
and release happen in the controller. -/
theorem combineAndProcessChunks_processingLock (tf : Bytes → TransformResult)
    (rand : String) (now : Nat) (u : String) (T : Nat) (fn : String) (st : SysState) :
    (combineAndProcessChunks tf rand now u T fn st).2.processingLock = st.processingLock := by
  simp only [combineAndProcessChunks]
  split
  · rfl
  · split <;> rfl

theorem mget_markUploadAsFailed_self (u m : String) (s : SysState) :
    mget (markUploadAsFailed u m s).chunksTracker u
      = (mget s.chunksTracker u).map (fun t => { t with status := .failed, error := some m }) := by
  unfold markUploadAsFailed
  cases h : mget s.chunksTracker u <;> simp [h]

theorem mget_updateUploadProgress_self (u : String) (n r : Nat) (s : SysState) :
    mget (updateUploadProgress u n r s).chunksTracker u
      = (mget s.chunksTracker u).map
          (fun t => { t with lastChunkReceived := some n, chunksReceived := r }) := by
  unfold updateUploadProgress
  cases h : mget s.chunksTracker u <;> simp [h]

/-! ### Shared concrete fixtures for the witness and evaluation theorems -/

/-- A transform collaborator that reports success and passes the bytes
through (the `preserve` behavior of `processImage`). -/
def tfId : Bytes → TransformResult := fun b => { success := true, output := b }

/-- The session object `initializeUpload` creates. -/
def tEmpty : Tracking :=
  { chunks := ∅, totalChunks := 0, filename := "", timestamp := 0, status := .initializing }

/-- An empty file system. -/
def fsEmpty : FS := { chunks := [], processing := [], uploads := [] }

/-- A freshly created session `u` with no files on disk. -/
def stFresh : SysState :=
  { chunksTracker := [("u", tEmpty)], processingLock := [], cleanupRegistry := [], fs := fsEmpty }

/-- Session `u` with the single chunk file `u-0` already stored by the
upload-receiving facility. -/
def stOneChunk : SysState :=
  { chunksTracker := [("u", tEmpty)], processingLock := [], cleanupRegistry := [],
    fs := { chunks := [(("u", 0), [7])], processing := [], uploads := [] } }

/-- Session `u` whose processing gate is currently held. -/
def stBusy : SysState :=
  { chunksTracker := [("u", tEmpty)], processingLock := [("u", true)],
    cleanupRegistry := [], fs := fsEmpty }

/-! ### Claims -/

/-- C1 (code bug).  On an upload whose chunks are all present and whose
transform reports success — the claim's notion of a succeeding combine
pipeline — the operation does NOT return artifact metadata with a sync
task identifier and does NOT merely drop the session: the success
path's `return` reads the never-assigned `syncTaskId`, so the pipeline
throws `ReferenceError`, the controller deletes the lock, marks the
session `failed` and rethrows; the session stays in the registry with
the `ReferenceError` message recorded. -/
theorem combine_success_raises_reference_error :
    (handleChunkUpload tfId "ab" 5 "u" 0 1 "photo.jpg" stOneChunk).1
        = Except.error (JsError.referenceError "syncTaskId")
    ∧ mget (handleChunkUpload tfId "ab" 5 "u" 0 1 "photo.jpg" stOneChunk).2.chunksTracker "u"
        = some { chunks := {0}, totalChunks := 1, filename := "photo.jpg", timestamp := 0,
                 status := .failed, error := some "syncTaskId is not defined",
                 lastChunkReceived := some 5, chunksReceived := 1 } := by
  constructor <;> rfl

/-- C4 (code bug).  With chunk file `u-0` present (bytes `[1, 2]`) and
`u-1` missing out of `totalChunks = 2`, the combiner's promise does
reject with the missing-chunk error, but the write loop has already
streamed chunk 0 into the destination: the destination receives the
partial bytes `[1, 2]`, contradicting "performs no partial writes". -/
theorem combineChunks_missing_chunk_partial_write :
    combineChunks [(("u", 0), [1, 2])] "u" 2
      = (Except.error (JsError.missingChunkFile "u" 1), [1, 2]) := by
  rfl

/-- C5 (code bug).  Cancelling a registered session (`u`, one chunk of
two received, gate free) does not delete anything, does not remove the
session or lock entry, and does not return `CANCELLED`: the cleanup
helper's `require('fs')` raises `ReferenceError` in the ES module, so
`cancelUpload` rethrows `Failed to cancel upload: require is not
defined` and the state is returned unchanged. -/
theorem cancelUpload_never_cancels :
    cancelUpload "u" stOneChunk
      = (Except.error (JsError.failedToCancel "require is not defined"), stOneChunk) := by
  rfl

/-- C6 (confirmed).  `cancelUpload` on a session whose processing gate
is held fails with the `Cannot cancel upload while processing` conflict
error and returns the state entirely unchanged. -/
theorem cancelUpload_conflict_while_processing (uploadId : String) (st : SysState)
    (t : Tracking) (ht : mget st.chunksTracker uploadId = some t)
    (hl : (mget st.processingLock uploadId).getD false = true) :
    cancelUpload uploadId st = (Except.error JsError.cannotCancelWhileProcessing, st) := by
  unfold cancelUpload
  rw [ht]
  simp [hl]

/-- Witness for C6 at the concrete state `stBusy`. -/
theorem cancelUpload_conflict_while_processing_witness :
    cancelUpload "u" stBusy = (Except.error JsError.cannotCancelWhileProcessing, stBusy) :=
  cancelUpload_conflict_while_processing "u" stBusy tEmpty (by rfl) (by rfl)

/-- C7, counterexample.  The status operation on an identifier absent
from the registry does not fail with `NotFound`: it RETURNS (ok) the
object `{status: FAILED, error: 'Upload not found'}`, which the route
serves as a normal 200 response (the route's 404 branch only fires on a
thrown error). -/
theorem getUploadStatus_unknown_returns_ok :
    getUploadStatus "nope" stFresh
      = Except.ok (StatusResponse.unknownView .failed "Upload not found") := by
  rfl

/-- C7, amended.  For every upload identifier not present in the
registry, the status operation returns (rather than fails with) a
response whose status is `FAILED` and whose error text is `Upload not
found`. -/
theorem getUploadStatus_unknown_amended (uploadId : String) (st : SysState)
    (h : mget st.chunksTracker uploadId = none) :
    getUploadStatus uploadId st
      = Except.ok (StatusResponse.unknownView .failed "Upload not found") := by
  unfold getUploadStatus
  rw [h]

/-- Witness for the amended C7 at a concrete state. -/
theorem getUploadStatus_unknown_amended_witness :
    getUploadStatus "other" stFresh
      = Except.ok (StatusResponse.unknownView .failed "Upload not found") :=
  getUploadStatus_unknown_amended "other" stFresh (by rfl)

/-- C10 (confirmed).  For every live session whose received-chunk count
equals `totalChunks` while the gate is not held — in particular one
retained after a failed combine, whose lock entry was deleted — the
derived status is `completed` (the stored `status` field, e.g.
`failed`, is ignored by the derivation). -/
theorem getUploadStatus_completed_when_full (uploadId : String) (st : SysState)
    (t : Tracking) (ht : mget st.chunksTracker uploadId = some t)
    (hl : (mget st.processingLock uploadId).getD false = false)
    (hc : t.chunks.card = t.totalChunks) :
    getUploadStatus uploadId st
      = Except.ok (StatusResponse.statusView .completed t.chunks.card t.totalChunks
          t.filename t.timestamp "inactive") := by
  unfold getUploadStatus
  rw [ht]
  simp [hl, hc]

/-- A session stored as `failed` after a failed combine, with both of
its two chunks received. -/
def tFull : Tracking :=
  { chunks := {0, 1}, totalChunks := 2, filename := "f", timestamp := 3,
    status := .failed, error := some "boom", lastChunkReceived := some 9,
    chunksReceived := 2 }

/-- State holding `tFull` with no lock entry (deleted after the failed
combine). -/
def stAfterFail : SysState :=
  { chunksTracker := [("u", tFull)], processingLock := [], cleanupRegistry := [],
    fs := fsEmpty }

/-- Witness for C10: a session stored as `failed` after a failed
combine, both chunks received, lock entry deleted — reported
`completed`. -/
theorem getUploadStatus_completed_when_full_witness :
    getUploadStatus "u" stAfterFail
      = Except.ok (StatusResponse.statusView .completed 2 2 "f" 3 "inactive") := by
  have h := getUploadStatus_completed_when_full "u" stAfterFail tFull
    (by rfl) (by rfl) (by decide)
  simpa [tFull] using h

/-- C9 (code bug).  `queueForSync` records the task as `pending` at
admission, but the caller's promise settles only from the `queue.push`
completion callback: the task identifier is delivered AFTER the
transfer finishes (trace order), and when the transfer ultimately fails
the promise rejects with the transport error, so the submitter never
receives a task identifier at all. -/
theorem queueForSync_settles_after_transfer :
    queueForSync "t1" 0 "file" (Except.error "network error") []
      = (Except.error "network error",
         [("t1", { status := .failed, startTime := 0, fileInfo := "file",
                   error := some "network error", completedTime := some 0 })],
         [.registryRecorded "t1" .pending, .transferFinished false,
          .promiseRejected "network error"])
    ∧ queueForSync "t1" 0 "file" (Except.ok ()) []
      = (Except.ok "t1",
         [("t1", { status := .pending, startTime := 0, fileInfo := "file" })],
         [.registryRecorded "t1" .pending, .transferFinished true,
          .promiseResolved "t1"]) := by
  constructor <;> rfl

/-- C2 (confirmed).  The processing gate enforces at most one
combine-and-relay pipeline per upload identifier: the pipeline is
entered only by the caller that finds the gate free (and takes it
atomically — no interleaving point separates the test from the set in
the source), a completing chunk submission that finds the gate held
returns the "processing in progress" acknowledgment with no pipeline
effect (gate, file system and cleanup ledger untouched), and whenever
the pipeline is entered its gate entry is deleted on both exit paths,
success and failure. -/
theorem processing_gate_exclusive_and_released (transform : Bytes → TransformResult)
    (rand : String) (now : Nat) (uploadId : String) (chunkNumber totalChunks : Nat)
    (originalFilename : String) (st : SysState) (t : Tracking)
    (ht : mget st.chunksTracker uploadId = some t)
    (hc : (insert chunkNumber t.chunks).card = totalChunks) :
    ((mget st.processingLock uploadId).getD false = true →
        (handleChunkUpload transform rand now uploadId chunkNumber totalChunks originalFilename st).1
            = Except.ok (.processingBusy (insert chunkNumber t.chunks).card totalChunks)
        ∧ (handleChunkUpload transform rand now uploadId chunkNumber totalChunks originalFilename st).2.processingLock
            = st.processingLock
        ∧ (handleChunkUpload transform rand now uploadId chunkNumber totalChunks originalFilename st).2.fs
            = st.fs
        ∧ (handleChunkUpload transform rand now uploadId chunkNumber totalChunks originalFilename st).2.cleanupRegistry
            = st.cleanupRegistry)
    ∧ ((mget st.processingLock uploadId).getD false = false →
        mget (handleChunkUpload transform rand now uploadId chunkNumber totalChunks originalFilename st).2.processingLock
          uploadId = none) := by
  constructor
  · intro hl
    simp [handleChunkUpload, ht, hc, hl]
  · intro hl
    simp only [handleChunkUpload, ht, hc, if_true, updateUploadProgress_processingLock, hl,
      Bool.false_eq_true, if_false]
    split
    · simp
    · simp [markUploadAsFailed_processingLock]

/-- Witness for C2 at concrete inputs: with the gate held (`stBusy`),
the completing submission for `u` is acknowledged as "in progress" and
the gate is untouched; with the gate free (`stOneChunk`), the pipeline
runs and the gate entry is gone afterwards. -/
theorem processing_gate_exclusive_and_released_witness :
    ((handleChunkUpload tfId "r" 0 "u" 0 1 "f" stBusy).1
        = Except.ok (.processingBusy 1 1)
      ∧ (handleChunkUpload tfId "r" 0 "u" 0 1 "f" stBusy).2.processingLock
        = stBusy.processingLock)
    ∧ mget (handleChunkUpload tfId "r" 0 "u" 0 1 "f" stOneChunk).2.processingLock "u" = none := by
  have h1 := (processing_gate_exclusive_and_released tfId "r" 0 "u" 0 1 "f" stBusy tEmpty
    (by rfl) (by decide)).1 (by rfl)
  have h2 := (processing_gate_exclusive_and_released tfId "r" 0 "u" 0 1 "f" stOneChunk tEmpty
    (by rfl) (by decide)).2 (by rfl)
  refine ⟨⟨?_, h1.2.1⟩, h2⟩
  have := h1.1
  simpa using this

/-- The upload-receiving facility (multer's `diskStorage`,
`multerConfig.mjs`) writes each submitted chunk's bytes to the file
`{uploadId}-{chunkIndex}` before the controller runs; submissions are
applied in arrival order, a re-submitted index overwriting the file. -/
def storeChunks (uploadId : String) (subs : List (Nat × Bytes))
    (chunksFs : List ((String × Nat) × Bytes)) : List ((String × Nat) × Bytes) :=
  subs.foldl (fun f p => mset f (uploadId, p.1) p.2) chunksFs

/-- The payload submitted for index `i` (unique when each index is
submitted exactly once). -/
def chunkPayload (subs : List (Nat × Bytes)) (i : Nat) : Bytes :=
  ((subs.find? (fun p => decide (p.1 = i))).map (·.2)).getD []

@[simp] theorem storeChunks_nil (uploadId : String) (chunksFs : List ((String × Nat) × Bytes)) :
    storeChunks uploadId [] chunksFs = chunksFs := rfl

@[simp] theorem storeChunks_cons (uploadId : String) (p : Nat × Bytes)
    (rest : List (Nat × Bytes)) (chunksFs : List ((String × Nat) × Bytes)) :
    storeChunks uploadId (p :: rest) chunksFs
      = storeChunks uploadId rest (mset chunksFs (uploadId, p.1) p.2) := rfl

theorem mget_storeChunks_of_not_mem (uploadId : String) (subs : List (Nat × Bytes))
    (chunksFs : List ((String × Nat) × Bytes)) (i : Nat)
    (h : i ∉ subs.map Prod.fst) :
    mget (storeChunks uploadId subs chunksFs) (uploadId, i) = mget chunksFs (uploadId, i) := by
  induction subs generalizing chunksFs with
  | nil => rfl
  | cons p rest ih =>
    rw [List.map_cons] at h
    have hi : p.1 ≠ i := fun hip => h (hip ▸ List.mem_cons_self _ _)
    have hrest : i ∉ rest.map Prod.fst := fun hm => h (List.mem_cons_of_mem _ hm)
    have hkey : ((uploadId, p.1) : String × Nat) ≠ (uploadId, i) := by
      simp only [ne_eq, Prod.mk.injEq, not_and]
      intro _
      exact hi
    rw [storeChunks_cons, ih _ hrest, mget_mset_ne _ _ _ _ hkey]

theorem mget_storeChunks_of_mem (uploadId : String) (subs : List (Nat × Bytes))
    (chunksFs : List ((String × Nat) × Bytes)) (i : Nat) (b : Bytes)
    (hnd : (subs.map Prod.fst).Nodup) (hmem : (i, b) ∈ subs) :
    mget (storeChunks uploadId subs chunksFs) (uploadId, i) = some b := by
  induction subs generalizing chunksFs with
  | nil => cases hmem
  | cons p rest ih =>
    rw [List.map_cons] at hnd
    rcases List.nodup_cons.mp hnd with ⟨hnotin0, hndrest⟩
    rcases List.mem_cons.mp hmem with heq | hrest
    · subst heq
      have hnotin : i ∉ rest.map Prod.fst := hnotin0
      rw [storeChunks_cons, mget_storeChunks_of_not_mem _ _ _ _ hnotin, mget_mset_self]
    · exact ih _ hndrest hrest

/-- Concatenation of two equal-on-members functions over a list. -/
theorem flatMap_congr_of_mem {α β : Type} (l : List α) (f g : α → List β)
    (h : ∀ a ∈ l, f a = g a) : l.flatMap f = l.flatMap g := by
  induction l with
  | nil => rfl
  | cons a l ih =>
    rw [List.flatMap_cons, List.flatMap_cons, h a (List.mem_cons_self a l),
      ih (fun x hx => h x (List.mem_cons_of_mem a hx))]

/-- C3 (confirmed).  For every sequence of chunk submissions, in any
arrival order, in which each of the `totalChunks` indices is received
exactly once (the submitted indices are a permutation of
`0 .. totalChunks-1`), the combiner succeeds and the combined
artifact's bytes are the concatenation of the submitted payloads in
ascending index order — independent of the arrival order and of
whatever else was on disk before. -/
theorem combineChunks_ascending_concat (uploadId : String) (T : Nat)
    (subs : List (Nat × Bytes)) (chunksFs0 : List ((String × Nat) × Bytes))
    (hperm : (subs.map Prod.fst).Perm (List.range T)) :
    combineChunks (storeChunks uploadId subs chunksFs0) uploadId T
      = (Except.ok (), (List.range T).flatMap (chunkPayload subs)) := by
  have hnd : (subs.map Prod.fst).Nodup := hperm.nodup_iff.mpr (List.nodup_range T)
  have key : ∀ i ∈ List.range T,
      mget (storeChunks uploadId subs chunksFs0) (uploadId, i) = some (chunkPayload subs i) := by
    intro i hi
    have hmemmap : i ∈ subs.map Prod.fst := hperm.mem_iff.mpr hi
    rcases List.mem_map.mp hmemmap with ⟨p, hp, hpi⟩
    have hfind : (subs.find? (fun q => decide (q.1 = i))).isSome := by
      rw [List.find?_isSome]
      exact ⟨p, hp, by simp [hpi]⟩
    rcases Option.isSome_iff_exists.mp hfind with ⟨q, hq⟩
    have hqi : q.1 = i := by have := List.find?_some hq; simpa using this
    have hqmem : q ∈ subs := List.mem_of_find?_eq_some hq
    have hpay : chunkPayload subs i = q.2 := by simp [chunkPayload, hq]
    rw [hpay]
    have hmem2 : (i, q.2) ∈ subs := by rw [← hqi]; simpa using hqmem
    exact mget_storeChunks_of_mem uploadId subs chunksFs0 i q.2 hnd hmem2
  have hnone : firstMissingChunk (storeChunks uploadId subs chunksFs0) uploadId T = none := by
    apply List.find?_eq_none.mpr
    intro i hi
    simp [key i hi]
  unfold combineChunks
  rw [hnone]
  refine congrArg (Prod.mk (Except.ok ())) ?_
  unfold bytesBefore
  exact flatMap_congr_of_mem _ _ _ (fun i hi => by rw [key i hi]; rfl)

/-- Witness for C3: chunks submitted in the order 1, 0 with payloads
`[5]`, `[3]` combine to `[3, 5]`, the ascending-order concatenation. -/
theorem combineChunks_ascending_concat_witness :
    combineChunks (storeChunks "u" [(1, [5]), (0, [3])] []) "u" 2
      = (Except.ok (), [3, 5]) :=
  (combineChunks_ascending_concat "u" 2 [(1, [5]), (0, [3])] [] (by decide)).trans (by rfl)

/-- C8, counterexample.  With `totalChunks` fixed at 2 on every
submission, submitting the out-of-range indices 1, 2, 3 (accepted and
stored as-is, no bounds validation) leaves the session with a
received-chunk set of size 3 > `totalChunks` = 2: the second submission
made the size hit 2 and triggered a combine, which failed on the
missing chunk 0 and so retained the session; the third submission then
grew the set past `totalChunks`. -/
theorem receivedChunks_exceed_totalChunks :
    ((mget (handleChunkUpload tfId "r" 0 "u" 3 2 "f"
        (handleChunkUpload tfId "r" 0 "u" 2 2 "f"
          (handleChunkUpload tfId "r" 0 "u" 1 2 "f" stFresh).2).2).2.chunksTracker "u").map
      (fun t => decide (t.chunks.card ≤ t.totalChunks))) = some false := by
  rfl

/-- After one controller call on a registered session, the session is
either gone (pipeline success path) or its received set is exactly the
previous set plus the submitted index. -/
theorem mget_handleChunkUpload_self (transform : Bytes → TransformResult)
    (rand : String) (now : Nat) (uploadId : String) (c T : Nat) (filename : String)
    (st : SysState) (t0 : Tracking) (hm : mget st.chunksTracker uploadId = some t0) :
    mget (handleChunkUpload transform rand now uploadId c T filename st).2.chunksTracker uploadId = none
    ∨ ∃ t, mget (handleChunkUpload transform rand now uploadId c T filename st).2.chunksTracker uploadId = some t
        ∧ t.chunks = insert c t0.chunks := by
  simp only [handleChunkUpload, hm]
  split
  · split
    · right
      rw [mget_updateUploadProgress_self]
      simp only [mget_mset_self, Option.map_some']
      exact ⟨_, rfl, rfl⟩
    · split
      · left
        simp
      · right
        rename_i st4 heq
        have h4 := congrArg (fun p => p.2.chunksTracker) heq
        simp only [] at h4
        rw [combineAndProcessChunks_chunksTracker] at h4
        simp only [mget_markUploadAsFailed_self]
        rw [← h4]
        simp only [mget_updateUploadProgress_self, mget_mset_self, Option.map_some']
        exact ⟨_, rfl, rfl⟩
  · right
    rw [mget_updateUploadProgress_self]
    simp only [mget_mset_self, Option.map_some']
    exact ⟨_, rfl, rfl⟩

/-- Folding a sequence of chunk submissions for one upload through the
controller, every call using the same `totalChunks` and filename (the
consistency the spec demands of callers). -/
def runChunks (transform : Bytes → TransformResult) (rand : String) (now : Nat)
    (uploadId : String) (totalChunks : Nat) (filename : String)
    (calls : List Nat) (st : SysState) : SysState :=
  calls.foldl
    (fun s c => (handleChunkUpload transform rand now uploadId c totalChunks filename s).2) st

/-- One controller call with an in-range index preserves the invariant
that the session's received set lies inside `0 .. T-1`. -/
theorem handleChunkUpload_chunks_subset (transform : Bytes → TransformResult)
    (rand : String) (now : Nat) (uploadId : String) (c T : Nat) (filename : String)
    (st : SysState) (hc : c < T)
    (hinv : ∀ t, mget st.chunksTracker uploadId = some t → t.chunks ⊆ Finset.range T) :
    ∀ t, mget (handleChunkUpload transform rand now uploadId c T filename st).2.chunksTracker uploadId = some t →
      t.chunks ⊆ Finset.range T := by
  intro t ht
  cases hm : mget st.chunksTracker uploadId with
  | none =>
      simp only [handleChunkUpload, hm] at ht
      cases ht
  | some t0 =>
      rcases mget_handleChunkUpload_self transform rand now uploadId c T filename st t0 hm with
        hnone | ⟨t1, ht1, hchunks⟩
      · rw [hnone] at ht
        cases ht
      · rw [ht1] at ht
        cases ht
        rw [hchunks]
        intro x hx
        rcases Finset.mem_insert.mp hx with rfl | hx0
        · exact Finset.mem_range.mpr hc
        · exact hinv t0 hm hx0

/-- C8, amended.  The received-chunk set's size can exceed
`totalChunks` when out-of-range indices are submitted (see the
counterexample); once every submitted index lies in
`[0, totalChunks)` — with `totalChunks` held fixed across the
submissions — the size never exceeds `totalChunks`: for any submission
sequence starting from a state whose session (if present) only holds
in-range indices, every live session state satisfies
`chunks.card ≤ totalChunks`. -/
theorem receivedChunks_card_le_totalChunks (transform : Bytes → TransformResult)
    (rand : String) (now : Nat) (uploadId : String) (T : Nat) (filename : String)
    (calls : List Nat) (st : SysState)
    (hcalls : ∀ c ∈ calls, c < T)
    (hinv : ∀ t, mget st.chunksTracker uploadId = some t → t.chunks ⊆ Finset.range T) :
    ∀ t, mget (runChunks transform rand now uploadId T filename calls st).chunksTracker uploadId = some t →
      t.chunks.card ≤ T := by
  have H : ∀ (calls : List Nat) (st : SysState),
      (∀ c ∈ calls, c < T) →
      (∀ t, mget st.chunksTracker uploadId = some t → t.chunks ⊆ Finset.range T) →
      ∀ t, mget (runChunks transform rand now uploadId T filename calls st).chunksTracker uploadId = some t →
        t.chunks ⊆ Finset.range T := by
    intro calls
    induction calls with
    | nil => intro st _ h0 t ht; exact h0 t ht
    | cons c rest ih =>
        intro st hcs h0 t ht
        exact ih _ (fun x hx => hcs x (List.mem_cons_of_mem c hx))
          (handleChunkUpload_chunks_subset transform rand now uploadId c T filename st
            (hcs c (List.mem_cons_self c rest)) h0) t ht
  intro t ht
  have hsub := H calls st hcalls hinv t ht
  calc t.chunks.card ≤ (Finset.range T).card := Finset.card_le_card hsub
    _ = T := Finset.card_range T

/-- Witness for the amended C8: submitting indices 0 then 1 with
`totalChunks = 2` (second call triggers a combine that fails on the
absent chunk files, retaining the session) leaves a session holding 2
chunks, within the bound. -/
theorem receivedChunks_card_le_totalChunks_witness :
    (∀ c ∈ [0, 1], c < 2)
    ∧ ∀ t, mget (runChunks tfId "r" 0 "u" 2 "f" [0, 1] stFresh).chunksTracker "u" = some t →
        t.chunks.card ≤ 2 := by
  refine ⟨by decide, ?_⟩
  exact receivedChunks_card_le_totalChunks tfId "r" 0 "u" 2 "f" [0, 1] stFresh (by decide)
    (fun t ht => by
      have hts : t = tEmpty := by
        have : mget stFresh.chunksTracker "u" = some tEmpty := rfl
        rw [this] at ht
        injection ht
        rename_i h
        exact h.symm
      rw [hts]
      intro x hx
      cases hx)

end FileServer
